import Mathlib

/-!
Shallow embedding of the pixoo-toolkit rasterization core
(src/color.ts, src/canvas.ts, src/font.ts, src/svg-path.ts)
and proofs about the specification's claims.

JavaScript numbers are modelled on their integer fragment as `Int`
(every input exercised here is integral); `Math.round` applied to a
fractional scaling factor is modelled with Mathlib's `round : ℚ → ℤ`,
which agrees with JavaScript rounding (half toward positive infinity).
`Uint8Array` stores are modelled by reduction mod 256 (the `ToUint8`
conversion on integral values).  A `NaN` produced by `parseInt` /
`Number` on a non-numeric string is modelled as `none : Option Int`.
-/

namespace Pixoo

/-- Model of the TS type `RGB` (src/color.ts): a triple of channel values.
The TS type documents channels as 0-255 but nothing enforces it, so the
model keeps unconstrained integers. -/
abbrev RGB := Int × Int × Int

/-- Model of the TS union `ColorLike = RGB | string | number`.
The array case keeps JavaScript's flexibility of missing channels. -/
inductive ColorLike where
  | arr (channels : List Int)
  | num (n : Int)
  | str (s : String)
deriving DecidableEq

/-- JavaScript whitespace (the ASCII part), as skipped by `parseInt`. -/
def isJsWs (c : Char) : Bool :=
  c == ' ' || c == '\t' || c == '\n' || c == '\r'

/-- Is `c` a hexadecimal digit (accepted by `parseInt(_, 16)`). -/
def isHexDigit (c : Char) : Bool :=
  (48 ≤ c.toNat && c.toNat ≤ 57) ||
  (97 ≤ c.toNat && c.toNat ≤ 102) ||
  (65 ≤ c.toNat && c.toNat ≤ 70)

/-- Numeric value of a hex digit. -/
def hexVal (c : Char) : Nat :=
  if 48 ≤ c.toNat && c.toNat ≤ 57 then c.toNat - 48
  else if 97 ≤ c.toNat && c.toNat ≤ 102 then c.toNat - 87
  else c.toNat - 55

/-- Model of JavaScript `parseInt(s, 16)`: skip leading whitespace, optional
sign, optional `0x` prefix, then the longest prefix of hex digits; no digit
at all gives `NaN`, modelled as `none`. -/
def jsParseIntHex (s : String) : Option Int :=
  let cs0 := s.data.dropWhile isJsWs
  let (sign, cs1) : Int × List Char :=
    match cs0 with
    | '-' :: rest => (-1, rest)
    | '+' :: rest => (1, rest)
    | _ => (1, cs0)
  let cs2 :=
    match cs1 with
    | '0' :: 'x' :: rest => rest
    | '0' :: 'X' :: rest => rest
    | _ => cs1
  let digits := cs2.takeWhile isHexDigit
  if digits.isEmpty then none
  else some (sign * digits.foldl (fun acc c => acc * 16 + (hexVal c : Int)) 0)

/-- Model of the JS idiom `v || 0` applied to a number that may be `NaN`:
`NaN` (and `0` itself) give `0`, anything else passes through. -/
def jsOrZero : Option Int → Int
  | none => 0
  | some v => v

/-- Model of `parseHexString` (src/color.ts:60-72).  Strips one leading
hash, takes the 3-digit branch exactly when the remainder has length 3,
otherwise slices a 6-digit form; each channel is `parseInt(_, 16) || 0`. -/
def parseHexString (s : String) : RGB :=
  let clean : List Char :=
    match s.data with
    | '#' :: rest => rest
    | cs => cs
  match clean with
  | [c0, c1, c2] =>
    (jsOrZero (jsParseIntHex ⟨[c0, c0]⟩),
     jsOrZero (jsParseIntHex ⟨[c1, c1]⟩),
     jsOrZero (jsParseIntHex ⟨[c2, c2]⟩))
  | _ =>
    (jsOrZero (jsParseIntHex ⟨clean.take 2⟩),
     jsOrZero (jsParseIntHex ⟨((clean.drop 2).take 2)⟩),
     jsOrZero (jsParseIntHex ⟨((clean.drop 4).take 2)⟩))

/-- The `NAMED_COLORS` table (src/color.ts:109-143), keys already lowercase. -/
def NAMED_COLORS : List (String × RGB) :=
  [("black", (0, 0, 0)), ("white", (255, 255, 255)), ("red", (255, 0, 0)),
   ("green", (0, 255, 0)), ("blue", (0, 0, 255)), ("yellow", (255, 255, 0)),
   ("cyan", (0, 255, 255)), ("magenta", (255, 0, 255)),
   ("orange", (255, 165, 0)), ("purple", (128, 0, 128)),
   ("pink", (255, 105, 180)), ("gray", (128, 128, 128)),
   ("grey", (128, 128, 128)), ("darkgray", (64, 64, 64)),
   ("darkgrey", (64, 64, 64)), ("lightgray", (192, 192, 192)),
   ("lightgrey", (192, 192, 192)), ("brown", (139, 69, 19)),
   ("lime", (0, 255, 0)), ("teal", (0, 128, 128)), ("navy", (0, 0, 128)),
   ("maroon", (128, 0, 0)), ("olive", (128, 128, 0)),
   ("coral", (255, 127, 80)), ("salmon", (250, 128, 114)),
   ("gold", (255, 215, 0)), ("indigo", (75, 0, 130)),
   ("violet", (238, 130, 238)), ("turquoise", (64, 224, 208)),
   ("claude", (230, 150, 70)), ("claude-orange", (230, 150, 70)),
   ("claude-tan", (210, 180, 140))]

/-- Lookup in the named-color table. -/
def namedColor (s : String) : Option RGB :=
  (NAMED_COLORS.find? (fun p => p.1 == s)).map (·.2)

/-- ASCII lowercase (what `toLowerCase` does on the inputs in scope). -/
def jsToLower (s : String) : String :=
  ⟨s.data.map Char.toLower⟩

/-- JavaScript `ToInt32` on an integral value. -/
def toInt32 (v : Int) : Int :=
  (v + 2 ^ 31) % 2 ^ 32 - 2 ^ 31

/-- Model of `hexToRgb` (src/color.ts:55-57): unpack `0xRRGGBB` via
32-bit arithmetic shifts and `& 0xff`. -/
def hexToRgb (hex : Int) : RGB :=
  let h := toInt32 hex
  (h.fdiv 65536 % 256, h.fdiv 256 % 256, h % 256)

/-- Model of `resolveColor` (src/color.ts:75-86).  Arrays pass through with
missing channels defaulted to 0; numbers unpack; strings try the
case-insensitive name table, then hex parsing.  The function's trailing
`return [255,255,255]` is reachable only for values outside the
`ColorLike` union and so has no counterpart here. -/
def resolveColor : ColorLike → RGB
  | .arr l => (l.getD 0 0, l.getD 1 0, l.getD 2 0)
  | .num n => hexToRgb n
  | .str s =>
    match namedColor (jsToLower s) with
    | some rgb => rgb
    | none => parseHexString s

/-- Model of `dimColor` (src/color.ts:99-105): per-channel
`Math.round(c[i] * factor)`; note the source has no clamping. -/
def dimColor (c : RGB) (factor : ℚ) : RGB :=
  (round ((c.1 : ℚ) * factor),
   round ((c.2.1 : ℚ) * factor),
   round ((c.2.2 : ℚ) * factor))

/-! ## Canvas (src/canvas.ts)

The 64×64 pixel buffer is modelled as a function from pixel coordinates to
the stored byte triple; all mutation in the claims' scope goes through
bounds-checked coordinates, so the row-major flattening `(y*64+x)*3` is
represented by the coordinate pair itself. -/

def DISPLAY_SIZE : Nat := 64

/-- Stored bytes of one pixel. -/
abbrev Pix := Nat × Nat × Nat

/-- The pixel buffer. -/
structure Canvas where
  pix : Nat → Nat → Pix

/-- Model of `Canvas.inBounds` (src/canvas.ts:37-39). -/
def inBounds (x y : Int) : Prop :=
  0 ≤ x ∧ x < (DISPLAY_SIZE : Int) ∧ 0 ≤ y ∧ y < (DISPLAY_SIZE : Int)

instance (x y : Int) : Decidable (inBounds x y) := by
  unfold inBounds; infer_instance

/-- `ToUint8` conversion performed by a `Uint8Array` store of an integral
value: reduction mod 256. -/
def toByte (v : Int) : Nat := (v % 256).toNat

/-- Overwrite one cell of the buffer. -/
def writePix (c : Canvas) (x y : Nat) (v : Pix) : Canvas :=
  ⟨fun a b => if a = x ∧ b = y then v else c.pix a b⟩

/-- Model of `Canvas.setPixel` (src/canvas.ts:42-52).  Coordinates are
already integers in this model, so `Math.floor` is the identity. -/
def setPixel (c : Canvas) (x y : Int) (color : ColorLike) : Canvas :=
  if inBounds x y then
    let rgb := resolveColor color
    writePix c x.toNat y.toNat (toByte rgb.1, toByte rgb.2.1, toByte rgb.2.2)
  else c

/-- Model of `Canvas.getPixel` (src/canvas.ts:55-61). -/
def getPixel (c : Canvas) (x y : Int) : RGB :=
  if inBounds x y then
    let p := c.pix x.toNat y.toNat
    ((p.1 : Int), (p.2.1 : Int), (p.2.2 : Int))
  else (0, 0, 0)

/-- Model of `Canvas.clear` (src/canvas.ts:66-78): whole-buffer fill, with
the recognized fast path for black. -/
def clear (_c : Canvas) (color : ColorLike) : Canvas :=
  let rgb := resolveColor color
  if rgb.1 = 0 ∧ rgb.2.1 = 0 ∧ rgb.2.2 = 0 then ⟨fun _ _ => (0, 0, 0)⟩
  else ⟨fun _ _ => (toByte rgb.1, toByte rgb.2.1, toByte rgb.2.2)⟩

/-- A `w × h` nested loop (outer rows, inner columns) flattened row-major:
element `i` is the pair `(x, y) = (i % w, i / w)`. -/
def rectCoords (w h : Nat) : List (Nat × Nat) :=
  (List.range (h * w)).map (fun i => (i % w, i / w))

/-- The nested `for y … for x` iteration of `scroll` over the full surface. -/
def allCoords : List (Nat × Nat) :=
  rectCoords DISPLAY_SIZE DISPLAY_SIZE

/-- One iteration of the `scroll` copy loop (src/canvas.ts:421-433):
copy source pixel `p` of the snapshot to `(p.1+dx, p.2+dy)` if that
destination is in bounds. -/
def scrollStep (src : Nat → Nat → Pix) (dx dy : Int) (buf : Canvas)
    (p : Nat × Nat) : Canvas :=
  let nx : Int := (p.1 : Int) + dx
  let ny : Int := (p.2 : Int) + dy
  if inBounds nx ny then writePix buf nx.toNat ny.toNat (src p.1 p.2) else buf

/-- Model of `Canvas.scroll` (src/canvas.ts:418-435): snapshot the buffer,
clear to black, copy every pixel whose shifted destination is in bounds. -/
def scroll (c : Canvas) (dx dy : Int) : Canvas :=
  allCoords.foldl (scrollStep c.pix dx dy) (clear c (.arr [0, 0, 0]))

/-! ## Bitmap fonts (src/font.ts) -/

/-- The `GLYPHS_5x7` table (src/font.ts:22-128), row bitmasks per glyph. -/
def GLYPHS_5x7 : List (Char × List Nat) :=
  [(' ', [0, 0, 0, 0, 0, 0, 0]),
  ('!', [4, 4, 4, 4, 4, 0, 4]),
  (Char.ofNat 34, [10, 10, 10, 0, 0, 0, 0]),
  ('#', [10, 10, 31, 10, 31, 10, 10]),
  ('$', [4, 15, 20, 14, 5, 30, 4]),
  ('%', [25, 26, 2, 4, 8, 11, 19]),
  ('&', [12, 18, 20, 8, 21, 18, 13]),
  (Char.ofNat 39, [4, 4, 4, 0, 0, 0, 0]),
  ('(', [2, 4, 8, 8, 8, 4, 2]),
  (')', [8, 4, 2, 2, 2, 4, 8]),
  ('*', [0, 4, 21, 14, 21, 4, 0]),
  ('+', [0, 4, 4, 31, 4, 4, 0]),
  (',', [0, 0, 0, 0, 0, 4, 8]),
  ('-', [0, 0, 0, 31, 0, 0, 0]),
  ('.', [0, 0, 0, 0, 0, 0, 4]),
  ('/', [1, 2, 2, 4, 8, 8, 16]),
  ('0', [14, 17, 19, 21, 25, 17, 14]),
  ('1', [4, 12, 4, 4, 4, 4, 14]),
  ('2', [14, 17, 1, 2, 4, 8, 31]),
  ('3', [14, 17, 1, 6, 1, 17, 14]),
  ('4', [2, 6, 10, 18, 31, 2, 2]),
  ('5', [31, 16, 30, 1, 1, 17, 14]),
  ('6', [6, 8, 16, 30, 17, 17, 14]),
  ('7', [31, 1, 2, 4, 8, 8, 8]),
  ('8', [14, 17, 17, 14, 17, 17, 14]),
  ('9', [14, 17, 17, 15, 1, 2, 12]),
  (':', [0, 0, 4, 0, 4, 0, 0]),
  (';', [0, 0, 4, 0, 4, 4, 8]),
  ('<', [2, 4, 8, 16, 8, 4, 2]),
  ('=', [0, 0, 31, 0, 31, 0, 0]),
  ('>', [16, 8, 4, 2, 4, 8, 16]),
  ('?', [14, 17, 1, 2, 4, 0, 4]),
  ('@', [14, 17, 23, 21, 22, 16, 14]),
  ('A', [14, 17, 17, 31, 17, 17, 17]),
  ('B', [30, 17, 17, 30, 17, 17, 30]),
  ('C', [14, 17, 16, 16, 16, 17, 14]),
  ('D', [30, 17, 17, 17, 17, 17, 30]),
  ('E', [31, 16, 16, 30, 16, 16, 31]),
  ('F', [31, 16, 16, 30, 16, 16, 16]),
  ('G', [14, 17, 16, 23, 17, 17, 14]),
  ('H', [17, 17, 17, 31, 17, 17, 17]),
  ('I', [14, 4, 4, 4, 4, 4, 14]),
  ('J', [7, 2, 2, 2, 2, 18, 12]),
  ('K', [17, 18, 20, 24, 20, 18, 17]),
  ('L', [16, 16, 16, 16, 16, 16, 31]),
  ('M', [17, 27, 21, 21, 17, 17, 17]),
  ('N', [17, 25, 21, 21, 19, 17, 17]),
  ('O', [14, 17, 17, 17, 17, 17, 14]),
  ('P', [30, 17, 17, 30, 16, 16, 16]),
  ('Q', [14, 17, 17, 17, 21, 18, 13]),
  ('R', [30, 17, 17, 30, 20, 18, 17]),
  ('S', [14, 17, 16, 14, 1, 17, 14]),
  ('T', [31, 4, 4, 4, 4, 4, 4]),
  ('U', [17, 17, 17, 17, 17, 17, 14]),
  ('V', [17, 17, 17, 17, 17, 10, 4]),
  ('W', [17, 17, 17, 21, 21, 27, 17]),
  ('X', [17, 17, 10, 4, 10, 17, 17]),
  ('Y', [17, 17, 10, 4, 4, 4, 4]),
  ('Z', [31, 1, 2, 4, 8, 16, 31]),
  ('[', [14, 8, 8, 8, 8, 8, 14]),
  (Char.ofNat 92, [16, 8, 8, 4, 2, 2, 1]),
  (']', [14, 2, 2, 2, 2, 2, 14]),
  ('^', [4, 10, 17, 0, 0, 0, 0]),
  ('_', [0, 0, 0, 0, 0, 0, 31]),
  (Char.ofNat 96, [8, 4, 2, 0, 0, 0, 0]),
  ('a', [0, 0, 14, 1, 15, 17, 15]),
  ('b', [16, 16, 30, 17, 17, 17, 30]),
  ('c', [0, 0, 14, 16, 16, 17, 14]),
  ('d', [1, 1, 15, 17, 17, 17, 15]),
  ('e', [0, 0, 14, 17, 31, 16, 14]),
  ('f', [6, 9, 8, 28, 8, 8, 8]),
  ('g', [0, 0, 15, 17, 15, 1, 14]),
  ('h', [16, 16, 22, 25, 17, 17, 17]),
  ('i', [4, 0, 12, 4, 4, 4, 14]),
  ('j', [2, 0, 6, 2, 2, 18, 12]),
  ('k', [16, 16, 18, 20, 24, 20, 18]),
  ('l', [12, 4, 4, 4, 4, 4, 14]),
  ('m', [0, 0, 26, 21, 21, 17, 17]),
  ('n', [0, 0, 22, 25, 17, 17, 17]),
  ('o', [0, 0, 14, 17, 17, 17, 14]),
  ('p', [0, 0, 30, 17, 30, 16, 16]),
  ('q', [0, 0, 15, 17, 15, 1, 1]),
  ('r', [0, 0, 22, 25, 16, 16, 16]),
  ('s', [0, 0, 15, 16, 14, 1, 30]),
  ('t', [8, 8, 28, 8, 8, 9, 6]),
  ('u', [0, 0, 17, 17, 17, 19, 13]),
  ('v', [0, 0, 17, 17, 17, 10, 4]),
  ('w', [0, 0, 17, 17, 21, 21, 10]),
  ('x', [0, 0, 17, 10, 4, 10, 17]),
  ('y', [0, 0, 17, 17, 15, 1, 14]),
  ('z', [0, 0, 31, 2, 4, 8, 31]),
  (Char.ofNat 123, [2, 4, 4, 8, 4, 4, 2]),
  ('|', [4, 4, 4, 4, 4, 4, 4]),
  (Char.ofNat 125, [8, 4, 4, 2, 4, 4, 8]),
  ('~', [0, 0, 8, 21, 2, 0, 0])]

/-- The `GLYPHS_3x5` table (src/font.ts:138-185). -/
def GLYPHS_3x5: List (Char × List Nat) :=
  [(' ', [0, 0, 0, 0, 0]),
  ('!', [2, 2, 2, 0, 2]),
  ('.', [0, 0, 0, 0, 2]),
  (',', [0, 0, 0, 2, 4]),
  (':', [0, 2, 0, 2, 0]),
  ('-', [0, 0, 7, 0, 0]),
  ('+', [0, 2, 7, 2, 0]),
  ('/', [1, 1, 2, 4, 4]),
  ('(', [2, 4, 4, 4, 2]),
  (')', [2, 1, 1, 1, 2]),
  ('0', [7, 5, 5, 5, 7]),
  ('1', [2, 6, 2, 2, 7]),
  ('2', [7, 1, 7, 4, 7]),
  ('3', [7, 1, 3, 1, 7]),
  ('4', [5, 5, 7, 1, 1]),
  ('5', [7, 4, 7, 1, 7]),
  ('6', [7, 4, 7, 5, 7]),
  ('7', [7, 1, 2, 2, 2]),
  ('8', [7, 5, 7, 5, 7]),
  ('9', [7, 5, 7, 1, 7]),
  ('A', [2, 5, 7, 5, 5]),
  ('B', [6, 5, 6, 5, 6]),
  ('C', [3, 4, 4, 4, 3]),
  ('D', [6, 5, 5, 5, 6]),
  ('E', [7, 4, 6, 4, 7]),
  ('F', [7, 4, 6, 4, 4]),
  ('G', [3, 4, 5, 5, 3]),
  ('H', [5, 5, 7, 5, 5]),
  ('I', [7, 2, 2, 2, 7]),
  ('J', [1, 1, 1, 5, 2]),
  ('K', [5, 6, 4, 6, 5]),
  ('L', [4, 4, 4, 4, 7]),
  ('M', [5, 7, 5, 5, 5]),
  ('N', [5, 7, 7, 5, 5]),
  ('O', [2, 5, 5, 5, 2]),
  ('P', [6, 5, 6, 4, 4]),
  ('Q', [2, 5, 5, 6, 3]),
  ('R', [6, 5, 6, 5, 5]),
  ('S', [3, 4, 2, 1, 6]),
  ('T', [7, 2, 2, 2, 2]),
  ('U', [5, 5, 5, 5, 2]),
  ('V', [5, 5, 5, 2, 2]),
  ('W', [5, 5, 5, 7, 5]),
  ('X', [5, 5, 2, 5, 5]),
  ('Y', [5, 5, 2, 2, 2]),
  ('Z', [7, 1, 2, 4, 7])]

/-- Model of the TS interface `BitmapFont`. -/
structure BitmapFont where
  width : Nat
  height : Nat
  glyphs : List (Char × List Nat)

/-- Record lookup `font.glyphs[ch]`. -/
def glyphLookup (f : BitmapFont) (ch : Char) : Option (List Nat) :=
  (f.glyphs.find? (fun p => p.1 == ch)).map (·.2)

def FONT_5x7 : BitmapFont := ⟨5, 7, GLYPHS_5x7⟩

def FONT_3x5 : BitmapFont := ⟨3, 5, GLYPHS_3x5⟩

/-- Model of the TS interface `TextOptions`; `none` stands for an omitted
field, defaulted by each consumer. -/
structure TextOptions where
  font : Option BitmapFont := none
  letterSpacing : Option Int := none
  scale : Option Int := none

/-- Bit length of a natural number: `Math.floor(Math.log2 n) + 1` for
`n > 0`, and `0` for `0`.  Written with structural fuel (`n` halvings
always suffice) so that it evaluates inside the kernel. -/
def bitLenFuel : Nat → Nat → Nat
  | 0, _ => 0
  | fuel + 1, n => if n = 0 then 0 else bitLenFuel fuel (n / 2) + 1

/-- Bit length, the value of `Math.floor(Math.log2 row) + 1` on a positive
integral row. -/
def bitLen (n : Nat) : Nat := bitLenFuel n n

/-- Model of `glyphWidth` (src/font.ts:207-216): the highest used bit
across the rows, floored at 1, or the font's full width for the space
character. -/
def glyphWidth (font : BitmapFont) (ch : Char) (glyph : List Nat) : Nat :=
  let maxBit := glyph.foldl
    (fun m row => if row > 0 then max m (bitLen row) else m) 0
  max maxBit (if ch = ' ' then font.width else 1)

/-- Result of `resolveGlyph`. -/
structure ResolvedGlyph where
  ch : Char
  glyph : Option (List Nat)

/-- Model of `resolveGlyph` (src/font.ts:219-230): direct lookup, then
uppercase retry for lowercase letters, then the question-mark fallback. -/
def resolveGlyph (font : BitmapFont) (ch : Char) : ResolvedGlyph :=
  match glyphLookup font ch with
  | some g => ⟨ch, some g⟩
  | none =>
    if 'a' ≤ ch ∧ ch ≤ 'z' then
      match glyphLookup font ch.toUpper with
      | some g => ⟨ch.toUpper, some g⟩
      | none => ⟨ch, glyphLookup font '?'⟩
    else ⟨ch, glyphLookup font '?'⟩

/-- Per-character cursor advance shared by `measureText` and `drawText`:
`(glyphWidth + spacing) * scale`, or `(font.width + spacing) * scale` when
no glyph resolves at all. -/
def charAdvance (font : BitmapFont) (spacing scale : Int) (c : Char) : Int :=
  let rg := resolveGlyph font c
  match rg.glyph with
  | none => ((font.width : Int) + spacing) * scale
  | some g => ((glyphWidth font rg.ch g : Int) + spacing) * scale

/-- Model of `measureText` (src/font.ts:233-249): sum the per-character
advances, then strip one trailing spacing for non-empty text. -/
def measureText (text : String) (opts : TextOptions) : Int :=
  let font := opts.font.getD FONT_5x7
  let spacing := opts.letterSpacing.getD 1
  let scale := opts.scale.getD 1
  let width := text.data.foldl (fun w c => w + charAdvance font spacing scale c) 0
  if text.length > 0 then width - spacing * scale else width

/-- The glyph-plotting loops of `drawText` (src/font.ts:276-291): plot every
set bit of every row as a `scale × scale` block. -/
def drawGlyph (cv : Canvas) (glyph : List Nat) (fw fh : Nat) (cx y : Int)
    (rgb : RGB) (scale : Int) : Canvas :=
  (List.range fh).foldl (fun cv1 gy =>
    let row := glyph.getD gy 0
    (List.range fw).foldl (fun cv2 gx =>
      let bit := (row >>> (fw - 1 - gx)) % 2
      if bit = 1 then
        (List.range scale.toNat).foldl (fun cv3 sy =>
          (List.range scale.toNat).foldl (fun cv4 sx =>
            setPixel cv4 (cx + (gx : Int) * scale + (sx : Int))
              (y + (gy : Int) * scale + (sy : Int))
              (.arr [rgb.1, rgb.2.1, rgb.2.2])) cv3) cv2
      else cv2) cv1) cv

/-- One character step of `drawText`: draw the resolved glyph (if any) at
the cursor and advance the cursor. -/
def drawTextStep (font : BitmapFont) (spacing scale : Int) (y : Int)
    (rgb : RGB) (acc : Canvas × Int) (c : Char) : Canvas × Int :=
  let rg := resolveGlyph font c
  match rg.glyph with
  | none => (acc.1, acc.2 + ((font.width : Int) + spacing) * scale)
  | some g =>
    (drawGlyph acc.1 g font.width font.height acc.2 y rgb scale,
     acc.2 + ((glyphWidth font rg.ch g : Int) + spacing) * scale)

/-- Model of `drawText` (src/font.ts:252-297): walk the characters left to
right; the second component is the returned width `cx - x`. -/
def drawText (canvas : Canvas) (text : String) (x y : Int)
    (color : ColorLike) (opts : TextOptions) : Canvas × Int :=
  let font := opts.font.getD FONT_5x7
  let spacing := opts.letterSpacing.getD 1
  let scale := opts.scale.getD 1
  let rgb := resolveColor color
  let fin := text.data.foldl (drawTextStep font spacing scale y rgb) (canvas, x)
  (fin.1, fin.2 - x)

/-! ## Compositing: blit (src/canvas.ts:340-364) -/

/-- The three ways a caller can supply `opts.transparentColor`:
omitted (`undefined`, the default black key), an explicit `null`
(copy everything), or a custom key. -/
inductive TransparentOpt where
  | undef
  | null
  | key (k : RGB)
deriving DecidableEq

/-- The `skip` value computed at src/canvas.ts:341-342. -/
def skipKey : TransparentOpt → Option RGB
  | .undef => some (0, 0, 0)
  | .null => none
  | .key k => some k

/-- The test `skip && r === skip[0] && g === skip[1] && b === skip[2]`
(`skip` is truthy exactly when it is not `null`). -/
def skipMatches (skip : Option RGB) (p : Pix) : Bool :=
  match skip with
  | some k =>
    decide ((p.1 : Int) = k.1) && decide ((p.2.1 : Int) = k.2.1) &&
      decide ((p.2.2 : Int) = k.2.2)
  | none => false

/-- The clamped source-coordinate iteration of `blit`, flattened row-major
(`sy` outer, `sx` inner) like the nested loops at src/canvas.ts:350-351;
element `i` is `(sx, sy)`. -/
def blitCoords (dx dy : Int) : List (Int × Int) :=
  let syStart := max 0 (-dy)
  let syEnd := min (DISPLAY_SIZE : Int) ((DISPLAY_SIZE : Int) - dy)
  let sxStart := max 0 (-dx)
  let sxEnd := min (DISPLAY_SIZE : Int) ((DISPLAY_SIZE : Int) - dx)
  (rectCoords (sxEnd - sxStart).toNat (syEnd - syStart).toNat).map
    (fun p => (sxStart + (p.1 : Int), syStart + (p.2 : Int)))

/-- One iteration of the `blit` copy loop (src/canvas.ts:352-360). -/
def blitStep (src : Nat → Nat → Pix) (dx dy : Int) (skip : Option RGB)
    (buf : Canvas) (p : Int × Int) : Canvas :=
  let spix := src p.1.toNat p.2.toNat
  if skipMatches skip spix then buf
  else writePix buf (dx + p.1).toNat (dy + p.2).toNat spix

/-- Model of `Canvas.blit` (src/canvas.ts:340-364): copy the source's
pixels into the destination at offset `(dx, dy)`, iterating only the
overlapping region, skipping pixels equal to the transparent key. -/
def blit (dst src : Canvas) (dx dy : Int) (opt : TransparentOpt) : Canvas :=
  (blitCoords dx dy).foldl (blitStep src.pix dx dy (skipKey opt)) dst

/-! ## Bresenham line (src/canvas.ts:159-186) -/

/-- Loop state of `drawLine`: current point and error accumulator. -/
structure BState where
  cx : Int
  cy : Int
  err : Int
deriving DecidableEq

/-- One iteration of the Bresenham loop body after the plot and the
endpoint test (src/canvas.ts:175-183); both conditions read the error
doubled before either update. -/
def bresStep (dx dy sx sy : Int) (s : BState) : BState :=
  let e2 := 2 * s.err
  let s1 := if e2 ≥ dy then { s with err := s.err + dy, cx := s.cx + sx } else s
  if e2 ≤ dx then { s1 with err := s1.err + dx, cy := s1.cy + sy } else s1

/-- The `for (;;)` loop of `drawLine`, with explicit fuel: each iteration
plots the current point and stops at `(x1, y1)`; `none` means the fuel ran
out before the endpoint was reached (the termination theorem shows the
fuel used by `drawLine` never does). -/
def bresRun (x1 y1 dx dy sx sy : Int) : Nat → BState → Option (List (Int × Int))
  | 0, _ => none
  | n + 1, s =>
    if s.cx = x1 ∧ s.cy = y1 then some [(s.cx, s.cy)]
    else
      match bresRun x1 y1 dx dy sx sy n (bresStep dx dy sx sy s) with
      | some ps => some ((s.cx, s.cy) :: ps)
      | none => none

/-- The step sign for the x axis (src/canvas.ts:167). -/
def bsx (x0 x1 : Int) : Int := if x0 < x1 then 1 else -1

/-- The step sign for the y axis (src/canvas.ts:168). -/
def bsy (y0 y1 : Int) : Int := if y0 < y1 then 1 else -1

/-- Model of `Canvas.drawLine` (src/canvas.ts:159-186): run the Bresenham
walk (fuel `|dx| + |dy| + 1`, shown sufficient by the termination theorem)
and plot every visited point. -/
def drawLine (c : Canvas) (x0 y0 x1 y1 : Int) (color : ColorLike) : Canvas :=
  let dx := |x1 - x0|
  let dy := -|y1 - y0|
  match bresRun x1 y1 dx dy (bsx x0 x1) (bsy y0 y1)
      ((dx - dy).toNat + 1) ⟨x0, y0, dx + dy⟩ with
  | some ps => ps.foldl (fun cv p => setPixel cv p.1 p.2 color) c
  | none => c

/-! ## SVG path parsing (src/svg-path.ts) -/

/-- A JavaScript numeric value in this model: `none` is `NaN` (or the
`undefined` read of a missing argument, which poisons arithmetic the same
way). -/
abbrev JsNum := Option Int

/-- NaN-propagating addition. -/
def jadd : JsNum → JsNum → JsNum
  | some a, some b => some (a + b)
  | _, _ => none

/-- The command letters of the tokenizer regex (src/svg-path.ts:21). -/
def isCmdChar (c : Char) : Bool :=
  "MmLlHhVvZzCcSsQqTtAa".data.contains c

/-- Regex scan of `([cmd])([^cmd]*)` pairs: each command letter is paired
with the raw characters that follow it; characters before the first
command letter are skipped, as the regex never matches them. -/
def tokenizeAux : List Char → Option (Char × List Char) → List (Char × List Char)
  | [], none => []
  | [], some (c, acc) => [(c, acc.reverse)]
  | d :: rest, none =>
    if isCmdChar d then tokenizeAux rest (some (d, []))
    else tokenizeAux rest none
  | d :: rest, some (c, acc) =>
    if isCmdChar d then (c, acc.reverse) :: tokenizeAux rest (some (d, []))
    else tokenizeAux rest (some (c, d :: acc))

/-- Trim JS whitespace at both ends (the trim call at src/svg-path.ts:25). -/
def trimWs (cs : List Char) : List Char :=
  ((cs.dropWhile isJsWs).reverse.dropWhile isJsWs).reverse

/-- The lookbehind replace that inserts a space before every minus sign not
preceded by `e`/`E` (src/svg-path.ts:30); the lookbehind reads the original
previous character. -/
def insertMinusSp : Option Char → List Char → List Char
  | _, [] => []
  | prev, c :: rest =>
    if c == '-' && prev != some 'e' && prev != some 'E' then
      ' ' :: '-' :: insertMinusSp (some '-') rest
    else c :: insertMinusSp (some c) rest

/-- Split on whitespace; the caller keeps only the non-empty chunks,
matching a split on whitespace runs followed by `filter(Boolean)`. -/
def splitWsAux : List Char → List Char → List (List Char)
  | [], acc => [acc.reverse]
  | c :: rest, acc =>
    if isJsWs c then acc.reverse :: splitWsAux rest []
    else splitWsAux rest (c :: acc)

/-- Model of JavaScript `Number` on the integer fragment: optional sign and
a non-empty digit string; anything else is `NaN`. -/
def jsNumInt (cs : List Char) : JsNum :=
  let (sign, ds) : Int × List Char :=
    match cs with
    | '-' :: rest => (-1, rest)
    | '+' :: rest => (1, rest)
    | _ => (1, cs)
  if !ds.isEmpty && ds.all (fun c => 48 ≤ c.toNat && c.toNat ≤ 57) then
    some (sign * ds.foldl (fun a c => a * 10 + ((c.toNat : Int) - 48)) 0)
  else none

/-- The argument-string processing of `tokenize` (src/svg-path.ts:25-34):
commas to spaces, detach glued minus signs, split, drop empties, read
numbers. -/
def parseArgs (cs : List Char) : List JsNum :=
  let t := trimWs cs
  if t.isEmpty then []
  else
    ((splitWsAux (insertMinusSp none
        (t.map (fun c => if c == ',' then ' ' else c))) []).filter
      (fun chunk => !chunk.isEmpty)).map jsNumInt

/-- Model of `tokenize` (src/svg-path.ts:18-38). -/
def tokenize (d : String) : List (Char × List JsNum) :=
  (tokenizeAux d.data none).map (fun t => (t.1, parseArgs t.2))

/-- Interpreter state of `parseSvgPath`: current point, subpath start
(for `Z`/`z`), and the emitted points. -/
structure PathState where
  cx : JsNum
  cy : JsNum
  sx : JsNum
  sy : JsNum
  points : List (JsNum × JsNum)
deriving DecidableEq

/-- Read of `args[i]!`; a missing argument is `undefined`, which poisons
numeric use exactly like `NaN` here. -/
def argAt (args : List JsNum) (i : Nat) : JsNum :=
  args.getD i none

/-- The consecutive pairs `(args[i], args[i+1])` visited by a loop with
guard `i + 1 < length` and stride 2. -/
def takePairs : List JsNum → List (JsNum × JsNum)
  | a :: b :: rest => (a, b) :: takePairs rest
  | _ => []

/-- The pairs `(args[i+2], args[i+3])` visited with guard `i + 3 < length`
and stride 4 (Q/S commands keep only the endpoint). -/
def take4th : List JsNum → List (JsNum × JsNum)
  | _ :: _ :: c :: d :: rest => (c, d) :: take4th rest
  | _ => []

/-- The pairs `(args[i+4], args[i+5])` visited with guard `i + 5 < length`
and stride 6 (C commands keep only the endpoint). -/
def take6th : List JsNum → List (JsNum × JsNum)
  | _ :: _ :: _ :: _ :: e :: f :: rest => (e, f) :: take6th rest
  | _ => []

/-- The pairs `(args[i+5], args[i+6])` visited with guard `i + 6 < length`
and stride 7 (A commands keep only the endpoint). -/
def take7th : List JsNum → List (JsNum × JsNum)
  | _ :: _ :: _ :: _ :: _ :: f :: g :: rest => (f, g) :: take7th rest
  | _ => []

/-- Absolute line-to for each pair: set the current point, push it. -/
def absPairs (st : PathState) (ps : List (JsNum × JsNum)) : PathState :=
  ps.foldl (fun st p =>
    { st with cx := p.1, cy := p.2, points := st.points ++ [(p.1, p.2)] }) st

/-- Relative line-to for each pair: add to the current point, push it. -/
def relPairs (st : PathState) (ps : List (JsNum × JsNum)) : PathState :=
  ps.foldl (fun st p =>
    let nx := jadd st.cx p.1
    let ny := jadd st.cy p.2
    { st with cx := nx, cy := ny, points := st.points ++ [(nx, ny)] }) st

/-- Model of one arm of the `switch` in `parseSvgPath`
(src/svg-path.ts:50-200). -/
def processToken (st : PathState) (tok : Char × List JsNum) : PathState :=
  let args := tok.2
  match tok.1 with
  | 'M' =>
    let nx := argAt args 0
    let ny := argAt args 1
    absPairs ⟨nx, ny, nx, ny, st.points ++ [(nx, ny)]⟩ (takePairs (args.drop 2))
  | 'm' =>
    let nx := jadd st.cx (argAt args 0)
    let ny := jadd st.cy (argAt args 1)
    relPairs ⟨nx, ny, nx, ny, st.points ++ [(nx, ny)]⟩ (takePairs (args.drop 2))
  | 'L' => absPairs st (takePairs args)
  | 'l' => relPairs st (takePairs args)
  | 'H' =>
    args.foldl (fun st a =>
      { st with cx := a, points := st.points ++ [(a, st.cy)] }) st
  | 'h' =>
    args.foldl (fun st a =>
      let nx := jadd st.cx a
      { st with cx := nx, points := st.points ++ [(nx, st.cy)] }) st
  | 'V' =>
    args.foldl (fun st a =>
      { st with cy := a, points := st.points ++ [(st.cx, a)] }) st
  | 'v' =>
    args.foldl (fun st a =>
      let ny := jadd st.cy a
      { st with cy := ny, points := st.points ++ [(st.cx, ny)] }) st
  | 'Z' =>
    if st.points = [] then st
    else { st with cx := st.sx, cy := st.sy,
                   points := st.points ++ [(st.sx, st.sy)] }
  | 'z' =>
    if st.points = [] then st
    else { st with cx := st.sx, cy := st.sy,
                   points := st.points ++ [(st.sx, st.sy)] }
  | 'C' => absPairs st (take6th args)
  | 'c' => relPairs st (take6th args)
  | 'Q' => absPairs st (take4th args)
  | 'q' => relPairs st (take4th args)
  | 'S' => absPairs st (take4th args)
  | 's' => relPairs st (take4th args)
  | 'T' => absPairs st (takePairs args)
  | 't' => relPairs st (takePairs args)
  | 'A' => absPairs st (take7th args)
  | 'a' => relPairs st (take7th args)
  | _ => st

/-- Model of `parseSvgPath` (src/svg-path.ts:41-204). -/
def parseSvgPath (d : String) : List (JsNum × JsNum) :=
  ((tokenize d).foldl processToken ⟨some 0, some 0, some 0, some 0, []⟩).points

/-! ## Helper lemmas -/

theorem writePix_pix (c : Canvas) (x y : Nat) (v : Pix) (a b : Nat) :
    (writePix c x y v).pix a b = if a = x ∧ b = y then v else c.pix a b := rfl

theorem rectCoords_mem (w h a b : Nat) :
    (a, b) ∈ rectCoords w h ↔ a < w ∧ b < h := by
  unfold rectCoords
  simp only [List.mem_map, List.mem_range, Prod.mk.injEq]
  constructor
  · rintro ⟨i, hi, rfl, rfl⟩
    have hw : 0 < w := by
      rcases Nat.eq_zero_or_pos w with hw0 | hw0
      · subst hw0; omega
      · exact hw0
    exact ⟨Nat.mod_lt _ hw, by
      rw [Nat.div_lt_iff_lt_mul hw]; exact Nat.lt_of_lt_of_le hi (by ring_nf; omega)⟩
  · rintro ⟨ha, hb⟩
    refine ⟨a + b * w, ?_, ?_, ?_⟩
    · calc a + b * w < w + b * w := by omega
        _ = (b + 1) * w := by ring
        _ ≤ h * w := Nat.mul_le_mul_right _ (by omega)
    · rw [Nat.add_mul_mod_self_right, Nat.mod_eq_of_lt ha]
    · rw [Nat.add_mul_div_right _ _ (by omega : 0 < w), Nat.div_eq_of_lt ha]
      omega

theorem rectCoords_nodup (w h : Nat) : (rectCoords w h).Nodup := by
  unfold rectCoords
  rcases Nat.eq_zero_or_pos w with hw | hw
  · subst hw; simp
  · refine List.Nodup.map ?_ (List.nodup_range _)
    intro i j hij
    have h1 : i % w = j % w := congrArg Prod.fst hij
    have h2 : i / w = j / w := congrArg Prod.snd hij
    calc i = w * (i / w) + i % w := (Nat.div_add_mod i w).symm
      _ = w * (j / w) + j % w := by rw [h1, h2]
      _ = j := Nat.div_add_mod j w

/-! ## Claims C1, C2, C4: the hex / resolution / dimming bugs -/

/-- Claim C1 (code evaluation at the failing inputs): `parseHexString` has
no distinguishable unparseable outcome — a string of non-hex characters
collapses to the same value as valid black, and a wrong-length string is
partially parsed into an ordinary triplet, contradicting the spec and the
unit tests, which expect `null`. -/
theorem parseHexString_invalid_collapses_to_black :
    parseHexString "#zzzzzz" = (0, 0, 0) ∧
    parseHexString "#000000" = (0, 0, 0) ∧
    parseHexString "#abcd" = (171, 205, 0) ∧
    parseHexString "a" = (10, 0, 0) := by decide

/-- Claim C2 (code evaluation at the failing input): a string that is
neither a named color nor valid hex does not resolve to white — the name
lookup fails and `parseHexString` partially parses it, here to `(0,0,12)`
(`parseInt("co", 16) = 12`), contradicting the spec and the unit test
expecting `(255,255,255)`. -/
theorem resolveColor_unresolvable_not_white :
    namedColor (jsToLower "notacolor") = none ∧
    resolveColor (.str "notacolor") = (0, 0, 12) ∧
    resolveColor (.str "notacolor") ≠ (255, 255, 255) := by decide

/-- Claim C4 (code evaluation at the failing input): `dimColor` performs no
clamping — `dimColor((255,128,64), 2)` is `(510,256,128)`, not the
`(255,255,128)` the spec states and not within the byte range the unit
tests expect. -/
theorem dimColor_not_clamped :
    dimColor (255, 128, 64) 2 = (510, 256, 128) ∧
    dimColor (255, 128, 64) 2 ≠ (255, 255, 128) := by
  unfold dimColor
  norm_num [round_eq]

/-! ## Claim C3: get-after-set -/

/-- Claim C3, amended: for in-bounds coordinates, reading right after
writing returns exactly the resolved color, provided each resolved channel
is an integer in `[0, 255]` (true for every named color, packed integer
and in-range triplet; the unamended claim fails because triplet
pass-through does not clamp, see the counterexample). -/
theorem getPixel_setPixel_resolved (c : Canvas) (x y : Int) (col : ColorLike)
    (hb : inBounds x y)
    (h0 : 0 ≤ (resolveColor col).1) (h1 : (resolveColor col).1 < 256)
    (h2 : 0 ≤ (resolveColor col).2.1) (h3 : (resolveColor col).2.1 < 256)
    (h4 : 0 ≤ (resolveColor col).2.2) (h5 : (resolveColor col).2.2 < 256) :
    getPixel (setPixel c x y col) x y = resolveColor col := by
  unfold setPixel getPixel toByte
  rw [if_pos hb, if_pos hb]
  simp only [writePix_pix, and_self, if_true]
  rw [Int.emod_eq_of_lt h0 h1, Int.emod_eq_of_lt h2 h3, Int.emod_eq_of_lt h4 h5,
    Int.toNat_of_nonneg h0, Int.toNat_of_nonneg h2, Int.toNat_of_nonneg h4]

/-- Witness for the amended C3 at a concrete input. -/
theorem getPixel_setPixel_resolved_witness :
    getPixel (setPixel (Canvas.mk fun _ _ => (0, 0, 0)) 3 4 (.str "claude")) 3 4 =
      resolveColor (.str "claude") :=
  getPixel_setPixel_resolved (Canvas.mk fun _ _ => (0, 0, 0)) 3 4 (.str "claude")
    (by decide) (by decide) (by decide) (by decide) (by decide) (by decide)
    (by decide)

/-- Counterexample to C3 as stated: the triplet `(300, 20, 30)` passes
through `resolveColor` unclamped, the byte store wraps 300 to 44, and the
read-back differs from the resolved color. -/
theorem getPixel_setPixel_out_of_range_counterexample :
    getPixel (setPixel ⟨fun _ _ => (0, 0, 0)⟩ 0 0 (.arr [300, 20, 30])) 0 0 =
      (44, 20, 30) ∧
    resolveColor (.arr [300, 20, 30]) = (300, 20, 30) ∧
    getPixel (setPixel ⟨fun _ _ => (0, 0, 0)⟩ 0 0 (.arr [300, 20, 30])) 0 0 ≠
      resolveColor (.arr [300, 20, 30]) := by decide

/-! ## Claim C5: out-of-bounds access -/

/-- Claim C5: for coordinates outside `[0,size)` on either axis, `setPixel`
returns the canvas unchanged (a silent no-op on the whole buffer) and
`getPixel` returns the black sentinel. -/
theorem setPixel_getPixel_out_of_bounds (c : Canvas) (x y : Int)
    (col : ColorLike) (h : ¬ inBounds x y) :
    setPixel c x y col = c ∧ getPixel c x y = (0, 0, 0) := by
  unfold setPixel getPixel
  rw [if_neg h, if_neg h]
  exact ⟨rfl, rfl⟩

/-- Witness for C5 at a concrete input. -/
theorem setPixel_getPixel_out_of_bounds_witness :
    setPixel ⟨fun _ _ => (7, 8, 9)⟩ 64 0 (.str "red") = ⟨fun _ _ => (7, 8, 9)⟩ ∧
    getPixel ⟨fun _ _ => (7, 8, 9)⟩ 64 0 = (0, 0, 0) :=
  setPixel_getPixel_out_of_bounds ⟨fun _ _ => (7, 8, 9)⟩ 64 0 (.str "red")
    (by decide)

/-! ## Claim C6: scroll -/

theorem scrollStep_no_target (src : Nat → Nat → Pix) (dx dy : Int) (X Y : Nat)
    (buf : Canvas) (p : Nat × Nat)
    (h : ¬((p.1 : Int) + dx = X ∧ (p.2 : Int) + dy = Y)) :
    (scrollStep src dx dy buf p).pix X Y = buf.pix X Y := by
  simp only [scrollStep]
  split
  · rename_i hin
    rw [writePix_pix, if_neg]
    rintro ⟨e1, e2⟩
    obtain ⟨hx0, _, hy0, _⟩ := hin
    exact h ⟨by omega, by omega⟩
  · rfl

theorem scrollFold_no_target (src : Nat → Nat → Pix) (dx dy : Int) (X Y : Nat) :
    ∀ (L : List (Nat × Nat)) (buf : Canvas),
      (∀ p ∈ L, ¬((p.1 : Int) + dx = X ∧ (p.2 : Int) + dy = Y)) →
      (L.foldl (scrollStep src dx dy) buf).pix X Y = buf.pix X Y := by
  intro L
  induction L with
  | nil => intro buf _; rfl
  | cons p L ih =>
    intro buf hno
    simp only [List.foldl_cons]
    rw [ih _ (fun q hq => hno q (List.mem_cons_of_mem _ hq)),
      scrollStep_no_target src dx dy X Y buf p (hno p (List.mem_cons_self _ _))]

theorem scrollFold_target (src : Nat → Nat → Pix) (dx dy : Int) (X Y : Nat)
    (hX : X < DISPLAY_SIZE) (hY : Y < DISPLAY_SIZE) (sx sy : Nat)
    (hsx : (sx : Int) + dx = X) (hsy : (sy : Int) + dy = Y) :
    ∀ (L : List (Nat × Nat)), L.Nodup → (sx, sy) ∈ L → ∀ buf : Canvas,
      (L.foldl (scrollStep src dx dy) buf).pix X Y = src sx sy := by
  intro L
  induction L with
  | nil => intro _ hmem; cases hmem
  | cons p L ih =>
    intro hnd hmem buf
    obtain ⟨hp, hndL⟩ := List.nodup_cons.mp hnd
    simp only [List.foldl_cons]
    rcases List.mem_cons.mp hmem with heq | hmem2
    · subst heq
      have hnoL : ∀ q ∈ L, ¬((q.1 : Int) + dx = X ∧ (q.2 : Int) + dy = Y) := by
        rintro q hq ⟨e1, e2⟩
        have hq1 : q.1 = sx := by omega
        have hq2 : q.2 = sy := by omega
        apply hp
        have : q = (sx, sy) := Prod.ext hq1 hq2
        rwa [← this]
      rw [scrollFold_no_target src dx dy X Y L _ hnoL]
      simp only [scrollStep]
      have hDS : (DISPLAY_SIZE : Int) = 64 := rfl
      have hin : inBounds ((sx : Int) + dx) ((sy : Int) + dy) := by
        unfold inBounds
        unfold DISPLAY_SIZE at hX hY ⊢
        push_cast
        omega
      rw [if_pos hin, writePix_pix, if_pos ⟨by omega, by omega⟩]
    · exact ih hndL hmem2 _

/-- Claim C6: `scroll(dx,dy)` is a full-buffer remap — after the call, each
in-bounds pixel `(X, Y)` holds the pre-call pixel at `(X-dx, Y-dy)` when
that source is in bounds, and black otherwise. -/
theorem scroll_remap (c : Canvas) (dx dy : Int) (X Y : Nat)
    (hX : X < DISPLAY_SIZE) (hY : Y < DISPLAY_SIZE) :
    (scroll c dx dy).pix X Y =
      if inBounds ((X : Int) - dx) ((Y : Int) - dy) then
        c.pix ((X : Int) - dx).toNat ((Y : Int) - dy).toNat
      else (0, 0, 0) := by
  unfold scroll
  split
  · rename_i hin
    obtain ⟨px0, px1, py0, py1⟩ := hin
    apply scrollFold_target c.pix dx dy X Y hX hY
      ((X : Int) - dx).toNat ((Y : Int) - dy).toNat (by omega) (by omega)
      allCoords (rectCoords_nodup _ _)
    rw [allCoords, rectCoords_mem]
    unfold DISPLAY_SIZE at px1 py1 ⊢
    constructor <;> omega
  · rename_i hout
    rw [scrollFold_no_target]
    · rfl
    · rintro p hp ⟨e1, e2⟩
      rw [allCoords, rectCoords_mem] at hp
      apply hout
      unfold inBounds DISPLAY_SIZE at *
      push_cast
      omega

/-- Witness for C6: scrolling a fully gray surface by `(60, 0)` leaves
column 62 gray (copied from column 2) and column 5 black (vacated). -/
theorem scroll_remap_witness :
    (scroll (Canvas.mk fun _ _ => (128, 128, 128)) 60 0).pix 62 5 =
      (128, 128, 128) ∧
    (scroll (Canvas.mk fun _ _ => (128, 128, 128)) 60 0).pix 5 5 = (0, 0, 0) := by
  constructor
  · rw [scroll_remap (Canvas.mk fun _ _ => (128, 128, 128)) 60 0 62 5
      (by decide) (by decide)]
    decide
  · rw [scroll_remap (Canvas.mk fun _ _ => (128, 128, 128)) 60 0 5 5
      (by decide) (by decide)]
    decide

/-! ## Claim C7: blit -/

theorem blitStep_no_target (src : Nat → Nat → Pix) (dx dy : Int)
    (skip : Option RGB) (X Y : Nat) (buf : Canvas) (p : Int × Int)
    (h0x : 0 ≤ dx + p.1) (h0y : 0 ≤ dy + p.2)
    (h : ¬(dx + p.1 = X ∧ dy + p.2 = Y)) :
    (blitStep src dx dy skip buf p).pix X Y = buf.pix X Y := by
  simp only [blitStep]
  split
  · rfl
  · rw [writePix_pix, if_neg]
    rintro ⟨e1, e2⟩
    exact h ⟨by omega, by omega⟩

theorem blitFold_no_target (src : Nat → Nat → Pix) (dx dy : Int)
    (skip : Option RGB) (X Y : Nat) :
    ∀ (L : List (Int × Int)) (buf : Canvas),
      (∀ p ∈ L, 0 ≤ dx + p.1 ∧ 0 ≤ dy + p.2) →
      (∀ p ∈ L, ¬(dx + p.1 = X ∧ dy + p.2 = Y)) →
      (L.foldl (blitStep src dx dy skip) buf).pix X Y = buf.pix X Y := by
  intro L
  induction L with
  | nil => intro buf _ _; rfl
  | cons p L ih =>
    intro buf hpos hno
    simp only [List.foldl_cons]
    rw [ih _ (fun q hq => hpos q (List.mem_cons_of_mem _ hq))
        (fun q hq => hno q (List.mem_cons_of_mem _ hq)),
      blitStep_no_target src dx dy skip X Y buf p
        (hpos p (List.mem_cons_self _ _)).1 (hpos p (List.mem_cons_self _ _)).2
        (hno p (List.mem_cons_self _ _))]

theorem blitFold_target (src : Nat → Nat → Pix) (dx dy : Int)
    (skip : Option RGB) (X Y : Nat) (sv tv : Int)
    (hsv : 0 ≤ sv) (htv : 0 ≤ tv)
    (hsx : dx + sv = X) (hsy : dy + tv = Y) :
    ∀ (L : List (Int × Int)), L.Nodup → (sv, tv) ∈ L →
      (∀ p ∈ L, 0 ≤ dx + p.1 ∧ 0 ≤ dy + p.2) → ∀ buf : Canvas,
      (L.foldl (blitStep src dx dy skip) buf).pix X Y =
        if skipMatches skip (src sv.toNat tv.toNat) then buf.pix X Y
        else src sv.toNat tv.toNat := by
  intro L
  induction L with
  | nil => intro _ hmem; cases hmem
  | cons p L ih =>
    intro hnd hmem hpos buf
    obtain ⟨hp, hndL⟩ := List.nodup_cons.mp hnd
    simp only [List.foldl_cons]
    rcases List.mem_cons.mp hmem with heq | hmem2
    · subst heq
      have hnoL : ∀ q ∈ L, ¬(dx + q.1 = X ∧ dy + q.2 = Y) := by
        rintro q hq ⟨e1, e2⟩
        apply hp
        have : q = (sv, tv) := Prod.ext (by omega) (by omega)
        rwa [← this]
      rw [blitFold_no_target src dx dy skip X Y L _
        (fun q hq => hpos q (List.mem_cons_of_mem _ hq)) hnoL]
      simp only [blitStep]
      split
      · rfl
      · rw [writePix_pix, if_pos ⟨by omega, by omega⟩]
    · have hpt : ¬(dx + p.1 = (X : Int) ∧ dy + p.2 = (Y : Int)) := by
        rintro ⟨e1, e2⟩
        have hpe : p = (sv, tv) := Prod.ext (by omega) (by omega)
        rw [hpe] at hp
        exact hp hmem2
      rw [ih hndL hmem2 (fun q hq => hpos q (List.mem_cons_of_mem _ hq))
          (blitStep src dx dy skip buf p),
        blitStep_no_target src dx dy skip X Y buf p
          (hpos p (List.mem_cons_self _ _)).1 (hpos p (List.mem_cons_self _ _)).2 hpt]

theorem blitCoords_mem (dx dy : Int) (q : Int × Int) :
    q ∈ blitCoords dx dy ↔
      0 ≤ q.1 ∧ q.1 < 64 ∧ 0 ≤ dx + q.1 ∧ dx + q.1 < 64 ∧
      0 ≤ q.2 ∧ q.2 < 64 ∧ 0 ≤ dy + q.2 ∧ dy + q.2 < 64 := by
  obtain ⟨a, b⟩ := q
  simp only [blitCoords, List.mem_map, Prod.mk.injEq]
  constructor
  · rintro ⟨p, hp, rfl, rfl⟩
    rw [rectCoords_mem] at hp
    obtain ⟨h1, h2⟩ := hp
    unfold DISPLAY_SIZE at h1 h2
    push_cast at h1 h2 ⊢
    omega
  · rintro ⟨h1, h2, h3, h4, h5, h6, h7, h8⟩
    refine ⟨((a - max 0 (-dx)).toNat, (b - max 0 (-dy)).toNat), ?_, by omega, by omega⟩
    rw [rectCoords_mem]
    unfold DISPLAY_SIZE
    constructor <;> omega

theorem blitCoords_nodup (dx dy : Int) : (blitCoords dx dy).Nodup := by
  unfold blitCoords
  refine List.Nodup.map ?_ (rectCoords_nodup _ _)
  intro p q hpq
  have h1 : (p.1 : Int) = q.1 := by
    have := congrArg Prod.fst hpq
    simp only at this
    omega
  have h2 : (p.2 : Int) = q.2 := by
    have := congrArg Prod.snd hpq
    simp only at this
    omega
  exact Prod.ext (by omega) (by omega)

/-- Claim C7: `blit` writes only inside the overlapping region, and an
in-bounds destination pixel `(X, Y)` receives the source pixel
`(X-dx, Y-dy)` unless that source pixel matches the transparent key
(black when options are omitted, never when `transparentColor: null` is
passed, and exactly the custom key when one is supplied — the three cases
of `skipKey`/`skipMatches`); skipped or non-overlapping pixels keep the
prior destination value. -/
theorem blit_pix (dst src : Canvas) (dx dy : Int) (opt : TransparentOpt)
    (X Y : Nat) (hX : X < DISPLAY_SIZE) (hY : Y < DISPLAY_SIZE) :
    (blit dst src dx dy opt).pix X Y =
      if inBounds ((X : Int) - dx) ((Y : Int) - dy) then
        (if skipMatches (skipKey opt)
            (src.pix ((X : Int) - dx).toNat ((Y : Int) - dy).toNat) then
          dst.pix X Y
        else src.pix ((X : Int) - dx).toNat ((Y : Int) - dy).toNat)
      else dst.pix X Y := by
  unfold blit
  split
  · rename_i hin
    obtain ⟨px0, px1, py0, py1⟩ := hin
    unfold DISPLAY_SIZE at *
    push_cast at px1 py1
    rw [blitFold_target src.pix dx dy (skipKey opt) X Y
      ((X : Int) - dx) ((Y : Int) - dy) px0 py0 (by omega) (by omega)
      (blitCoords dx dy) (blitCoords_nodup dx dy)
      (by rw [blitCoords_mem]; refine ⟨px0, by omega, by omega, by omega,
        py0, by omega, by omega, by omega⟩)
      (by intro p hp; rw [blitCoords_mem] at hp; exact ⟨hp.2.2.1, hp.2.2.2.2.2.2.1⟩)
      dst]
  · rename_i hout
    rw [blitFold_no_target src.pix dx dy (skipKey opt) X Y (blitCoords dx dy) dst
      (by intro p hp; rw [blitCoords_mem] at hp; exact ⟨hp.2.2.1, hp.2.2.2.2.2.2.1⟩)]
    rintro p hp ⟨e1, e2⟩
    rw [blitCoords_mem] at hp
    apply hout
    unfold inBounds DISPLAY_SIZE
    push_cast
    omega

/-- Witness for C7, the spec's compositing example: source with one red
pixel at `(0,0)`, black elsewhere, onto a gray destination at `(10,10)` —
by default `(11,10)` keeps gray (black source treated as transparent) and
`(10,10)` receives red, while `transparentColor: null` copies black over
`(11,10)` too. -/
theorem blit_pix_witness :
    (blit (Canvas.mk fun _ _ => (128, 128, 128))
        (Canvas.mk fun a b => if a = 0 ∧ b = 0 then (255, 0, 0) else (0, 0, 0))
        10 10 .undef).pix 11 10 = (128, 128, 128) ∧
    (blit (Canvas.mk fun _ _ => (128, 128, 128))
        (Canvas.mk fun a b => if a = 0 ∧ b = 0 then (255, 0, 0) else (0, 0, 0))
        10 10 .undef).pix 10 10 = (255, 0, 0) ∧
    (blit (Canvas.mk fun _ _ => (128, 128, 128))
        (Canvas.mk fun a b => if a = 0 ∧ b = 0 then (255, 0, 0) else (0, 0, 0))
        10 10 .null).pix 11 10 = (0, 0, 0) := by
  refine ⟨?_, ?_, ?_⟩
  · rw [blit_pix (Canvas.mk fun _ _ => (128, 128, 128))
      (Canvas.mk fun a b => if a = 0 ∧ b = 0 then (255, 0, 0) else (0, 0, 0))
      10 10 .undef 11 10 (by decide) (by decide)]
    decide
  · rw [blit_pix (Canvas.mk fun _ _ => (128, 128, 128))
      (Canvas.mk fun a b => if a = 0 ∧ b = 0 then (255, 0, 0) else (0, 0, 0))
      10 10 .undef 10 10 (by decide) (by decide)]
    decide
  · rw [blit_pix (Canvas.mk fun _ _ => (128, 128, 128))
      (Canvas.mk fun a b => if a = 0 ∧ b = 0 then (255, 0, 0) else (0, 0, 0))
      10 10 .null 11 10 (by decide) (by decide)]
    decide

/-! ## Claim C8: drawText return value vs measureText -/

theorem drawTextStep_snd (font : BitmapFont) (spacing scale y : Int)
    (rgb : RGB) (acc : Canvas × Int) (c : Char) :
    (drawTextStep font spacing scale y rgb acc c).2 =
      acc.2 + charAdvance font spacing scale c := by
  unfold drawTextStep charAdvance
  dsimp only
  rcases hg : (resolveGlyph font c).glyph with _ | g <;> simp [hg]

theorem measureFold_shift (font : BitmapFont) (spacing scale : Int) :
    ∀ (l : List Char) (w : Int),
      l.foldl (fun w c => w + charAdvance font spacing scale c) w =
        w + l.foldl (fun w c => w + charAdvance font spacing scale c) 0 := by
  intro l
  induction l with
  | nil => intro w; simp
  | cons c t ih =>
    intro w
    simp only [List.foldl_cons]
    rw [ih (w + charAdvance font spacing scale c),
      ih (0 + charAdvance font spacing scale c)]
    ring

theorem drawTextFold_snd (font : BitmapFont) (spacing scale y : Int)
    (rgb : RGB) :
    ∀ (l : List Char) (acc : Canvas × Int),
      (l.foldl (drawTextStep font spacing scale y rgb) acc).2 =
        acc.2 + l.foldl (fun w c => w + charAdvance font spacing scale c) 0 := by
  intro l
  induction l with
  | nil => intro acc; simp
  | cons c t ih =>
    intro acc
    simp only [List.foldl_cons]
    rw [ih (drawTextStep font spacing scale y rgb acc c), drawTextStep_snd,
      measureFold_shift font spacing scale t (0 + charAdvance font spacing scale c)]
    ring

/-- Claim C8: for non-empty text, the width returned by `drawText` is the
total cursor advance including the trailing spacing — exactly
`measureText text opts + letterSpacing * scale` — with the same
glyph-fallback resolution applied in both functions (both walk the
characters through `resolveGlyph` and `charAdvance`; `measureText` sums
the advances and strips one trailing `spacing * scale`). -/
theorem drawText_advance_eq_measure (canvas : Canvas) (text : String)
    (x y : Int) (color : ColorLike) (opts : TextOptions) (h : text ≠ "") :
    (drawText canvas text x y color opts).2 =
      measureText text opts +
        opts.letterSpacing.getD 1 * opts.scale.getD 1 := by
  have hl : 0 < text.length := by
    rcases text with ⟨l⟩
    rcases l with _ | ⟨a, t⟩
    · exact absurd (by decide) h
    · simp [String.length]
  simp only [drawText, measureText]
  rw [if_pos hl, drawTextFold_snd]
  ring

/-- Witness for C8 at a concrete input: drawing `"AB"` with default
options returns 12, one trailing spacing more than `measureText`'s 11. -/
theorem drawText_advance_eq_measure_witness :
    (drawText (Canvas.mk fun _ _ => (0, 0, 0)) "AB" 2 3 (.str "red") {}).2 = 12 ∧
    measureText "AB" {} = 11 := by
  constructor
  · rw [drawText_advance_eq_measure (Canvas.mk fun _ _ => (0, 0, 0)) "AB" 2 3
      (.str "red") {} (by decide)]
    decide
  · decide

/-! ## Claim C9: SVG close-path -/

/-- Counterexample to C9 as stated: a `Z` reached while no point has been
emitted yet appends nothing (the code guards on a non-empty point list),
so not every `Z` appends the current subpath start — the path `"Z"`
produces an empty point list instead of `[(0, 0)]`. -/
theorem parseSvgPath_close_empty_counterexample :
    tokenize "Z" = [('Z', [])] ∧ parseSvgPath "Z" = [] := by decide

/-- Claim C9, amended: `parseSvgPath "M0 0 L10 0 L10 10 Z"` yields exactly
`[(0,0),(10,0),(10,10),(0,0)]`; in general every `Z`/`z` command reached
with a non-empty emitted point list appends a point equal to the current
subpath start, tracked per the most recent move command (so with several
subpaths the close returns to the latest move, as the second example
shows), while a `Z`/`z` with no points yet emitted is a no-op. -/
theorem parseSvgPath_close_spec :
    parseSvgPath "M0 0 L10 0 L10 10 Z" =
      [(some 0, some 0), (some 10, some 0), (some 10, some 10),
       (some 0, some 0)] ∧
    parseSvgPath "M0 0 L10 0 M20 20 L30 20 Z" =
      [(some 0, some 0), (some 10, some 0), (some 20, some 20),
       (some 30, some 20), (some 20, some 20)] ∧
    (∀ (st : PathState) (args : List JsNum), st.points ≠ [] →
      processToken st ('Z', args) =
        { st with cx := st.sx, cy := st.sy,
                  points := st.points ++ [(st.sx, st.sy)] }) ∧
    (∀ (st : PathState) (args : List JsNum), st.points ≠ [] →
      processToken st ('z', args) =
        { st with cx := st.sx, cy := st.sy,
                  points := st.points ++ [(st.sx, st.sy)] }) := by
  refine ⟨by decide, by decide, ?_, ?_⟩ <;>
    · intro st args hne
      simp only [processToken]
      rw [if_neg hne]

/-- Witness for the amended C9 at a concrete state: closing from a state
whose subpath start is `(1, 2)` appends `(1, 2)` and moves the current
point there. -/
theorem parseSvgPath_close_spec_witness :
    processToken ⟨some 5, some 6, some 1, some 2, [(some 5, some 6)]⟩
        ('Z', []) =
      ⟨some 1, some 2, some 1, some 2,
       [(some 5, some 6), (some 1, some 2)]⟩ := by
  have h := parseSvgPath_close_spec.2.2.1
    ⟨some 5, some 6, some 1, some 2, [(some 5, some 6)]⟩ [] (by decide)
  exact h

/-! ## Claim C10: Bresenham termination -/

theorem bsx_sign (x0 x1 : Int) : bsx x0 x1 = 1 ∨ bsx x0 x1 = -1 := by
  unfold bsx; split <;> simp

theorem bsy_sign (y0 y1 : Int) : bsy y0 y1 = 1 ∨ bsy y0 y1 = -1 := by
  unfold bsy; split <;> simp

theorem bsx_mul_abs (x0 x1 : Int) : x0 + bsx x0 x1 * |x1 - x0| = x1 := by
  unfold bsx
  split
  · rename_i h
    rw [abs_of_nonneg (by omega : (0 : Int) ≤ x1 - x0)]
    ring
  · rename_i h
    rw [abs_of_nonpos (by omega : x1 - x0 ≤ 0)]
    ring

theorem bsy_mul_abs (y0 y1 : Int) : y0 + bsy y0 y1 * |y1 - y0| = y1 := by
  unfold bsy
  split
  · rename_i h
    rw [abs_of_nonneg (by omega : (0 : Int) ≤ y1 - y0)]
    ring
  · rename_i h
    rw [abs_of_nonpos (by omega : y1 - y0 ≤ 0)]
    ring

/-- An x step never fires once the x distance is exhausted (unless the walk
is already at the endpoint): the decision `2·err ≥ dy` fails at `i = A`
while rows remain. -/
theorem bres_no_x_overshoot (A B i j : Int) (hA0 : 0 ≤ A) (hB0 : 0 ≤ B)
    (hiA : i = A) (hj0 : 0 ≤ j) (hjB : j < B)
    (hcx : 2 * (A * (1 + j) - B * (1 + i)) ≥ -B) : False := by
  rw [hiA] at hcx
  have hQ : B * (1 + A) = B + A * B := by ring
  have hP : A * (1 + j) ≤ A * B := mul_le_mul_of_nonneg_left (by omega) hA0
  linarith

/-- A y step never fires once the y distance is exhausted while columns
remain: the decision `2·err ≤ dx` fails at `j = B`. -/
theorem bres_no_y_overshoot (A B i j : Int) (hA0 : 0 ≤ A) (hB0 : 0 ≤ B)
    (hjB : j = B) (hi0 : 0 ≤ i) (hiA : i < A)
    (hcy : 2 * (A * (1 + j) - B * (1 + i)) ≤ A) : False := by
  rw [hjB] at hcy
  have hQ : A * (1 + B) = A + B * A := by ring
  have hP : B * (1 + i) ≤ B * A := mul_le_mul_of_nonneg_left (by omega) hB0
  linarith

/-- Invariant run of the Bresenham loop: from the state reached after `i`
x steps and `j` y steps (whose error value is determined as
`A(1+j) - B(1+i)`), any fuel exceeding the remaining distance reaches the
endpoint. -/
theorem bres_aux (x0 y0 x1 y1 A B s t : Int)
    (hA0 : 0 ≤ A) (hB0 : 0 ≤ B)
    (hsA : x0 + s * A = x1) (htB : y0 + t * B = y1)
    (hs : s = 1 ∨ s = -1) (ht : t = 1 ∨ t = -1) :
    ∀ (n : Nat) (i j : Int), 0 ≤ i → i ≤ A → 0 ≤ j → j ≤ B →
      A - i + (B - j) < (n : Int) →
      ∃ ps, bresRun x1 y1 A (-B) s t n
          ⟨x0 + s * i, y0 + t * j, A * (1 + j) - B * (1 + i)⟩ = some ps ∧
        ps ≠ [] ∧ ps.getLast? = some (x1, y1) := by
  intro n
  induction n with
  | zero =>
    intro i j hi0 hiA hj0 hjB hn
    exact absurd hn (by push_cast; omega)
  | succ n ih =>
    intro i j hi0 hiA hj0 hjB hn
    push_cast at hn
    by_cases hend : i = A ∧ j = B
    · obtain ⟨rfl, rfl⟩ := hend
      refine ⟨[(x1, y1)], ?_, by simp, by simp⟩
      simp only [bresRun]
      rw [if_pos ⟨hsA, htB⟩, hsA, htB]
    · have hguard : ¬(x0 + s * i = x1 ∧ y0 + t * j = y1) := by
        rintro ⟨e1, e2⟩
        apply hend
        rw [← hsA] at e1
        rw [← htB] at e2
        rcases hs with rfl | rfl <;> rcases ht with rfl | rfl <;>
          exact ⟨by omega, by omega⟩
      by_cases hcx : 2 * (A * (1 + j) - B * (1 + i)) ≥ -B <;>
        by_cases hcy : 2 * (A * (1 + j) - B * (1 + i)) ≤ A
      · -- both axes step
        have hiA2 : i < A := by
          rcases lt_or_eq_of_le hiA with h | h
          · exact h
          · exfalso
            have hjB2 : j < B := by
              rcases lt_or_eq_of_le hjB with h2 | h2
              · exact h2
              · exact absurd ⟨h, h2⟩ hend
            exact bres_no_x_overshoot A B i j hA0 hB0 h hj0 hjB2 hcx
        have hjB2 : j < B := by
          rcases lt_or_eq_of_le hjB with h2 | h2
          · exact h2
          · exact absurd (bres_no_y_overshoot A B i j hA0 hB0 h2 hi0 hiA2 hcy)
              not_false
        have hstep : bresStep A (-B) s t
            ⟨x0 + s * i, y0 + t * j, A * (1 + j) - B * (1 + i)⟩ =
            ⟨x0 + s * (i + 1), y0 + t * (j + 1),
             A * (1 + (j + 1)) - B * (1 + (i + 1))⟩ := by
          simp only [bresStep]
          rw [if_pos hcx, if_pos hcy]
          simp only [BState.mk.injEq]
          refine ⟨by ring, by ring, by ring⟩
        obtain ⟨ps, hps, hne, hlast⟩ := ih (i + 1) (j + 1) (by omega) (by omega)
          (by omega) (by omega) (by omega)
        refine ⟨(x0 + s * i, y0 + t * j) :: ps, ?_, by simp, ?_⟩
        · simp only [bresRun]
          rw [if_neg hguard, hstep, hps]
        · rcases ps with _ | ⟨q, qs⟩
          · exact absurd rfl hne
          · rw [List.getLast?_cons_cons]
            exact hlast
      · -- x steps only
        have hiA2 : i < A := by
          rcases lt_or_eq_of_le hiA with h | h
          · exact h
          · exfalso
            have hjB2 : j < B := by
              rcases lt_or_eq_of_le hjB with h2 | h2
              · exact h2
              · exact absurd ⟨h, h2⟩ hend
            exact bres_no_x_overshoot A B i j hA0 hB0 h hj0 hjB2 hcx
        have hstep : bresStep A (-B) s t
            ⟨x0 + s * i, y0 + t * j, A * (1 + j) - B * (1 + i)⟩ =
            ⟨x0 + s * (i + 1), y0 + t * j,
             A * (1 + j) - B * (1 + (i + 1))⟩ := by
          simp only [bresStep]
          rw [if_pos hcx, if_neg hcy]
          simp only [BState.mk.injEq]
          refine ⟨by ring, by ring, by ring⟩
        obtain ⟨ps, hps, hne, hlast⟩ := ih (i + 1) j (by omega) (by omega)
          hj0 hjB (by omega)
        refine ⟨(x0 + s * i, y0 + t * j) :: ps, ?_, by simp, ?_⟩
        · simp only [bresRun]
          rw [if_neg hguard, hstep, hps]
        · rcases ps with _ | ⟨q, qs⟩
          · exact absurd rfl hne
          · rw [List.getLast?_cons_cons]
            exact hlast
      · -- y steps only
        have hjB2 : j < B := by
          rcases lt_or_eq_of_le hjB with h2 | h2
          · exact h2
          · exfalso
            have hiA3 : i < A := by
              rcases lt_or_eq_of_le hiA with h3 | h3
              · exact h3
              · exact absurd ⟨h3, h2⟩ hend
            exact bres_no_y_overshoot A B i j hA0 hB0 h2 hi0 hiA3 hcy
        have hstep : bresStep A (-B) s t
            ⟨x0 + s * i, y0 + t * j, A * (1 + j) - B * (1 + i)⟩ =
            ⟨x0 + s * i, y0 + t * (j + 1),
             A * (1 + (j + 1)) - B * (1 + i)⟩ := by
          simp only [bresStep]
          rw [if_neg hcx, if_pos hcy]
          simp only [BState.mk.injEq]
          refine ⟨by ring, by ring, by ring⟩
        obtain ⟨ps, hps, hne, hlast⟩ := ih i (j + 1) hi0 hiA (by omega)
          (by omega) (by omega)
        refine ⟨(x0 + s * i, y0 + t * j) :: ps, ?_, by simp, ?_⟩
        · simp only [bresRun]
          rw [if_neg hguard, hstep, hps]
        · rcases ps with _ | ⟨q, qs⟩
          · exact absurd rfl hne
          · rw [List.getLast?_cons_cons]
            exact hlast
      · -- impossible: one of the two decisions always fires
        exfalso
        push_neg at hcx hcy
        linarith

/-- Claim C10: the Bresenham loop of `drawLine` terminates — with the fuel
`drawLine` supplies, the walk from the floored start reaches exactly the
floored endpoint `(x1, y1)` after finitely many steps, so `drawLine` is a
total function that plots the finite visited point list. -/
theorem drawLine_bresenham_terminates (x0 y0 x1 y1 : Int) :
    ∃ ps,
      bresRun x1 y1 |x1 - x0| (-|y1 - y0|) (bsx x0 x1) (bsy y0 y1)
          ((|x1 - x0| + |y1 - y0|).toNat + 1)
          ⟨x0, y0, |x1 - x0| - |y1 - y0|⟩ = some ps ∧
      ps ≠ [] ∧ ps.getLast? = some (x1, y1) ∧
      ∀ (c : Canvas) (col : ColorLike),
        drawLine c x0 y0 x1 y1 col =
          ps.foldl (fun cv p => setPixel cv p.1 p.2 col) c := by
  have hmeas : |x1 - x0| - 0 + (|y1 - y0| - 0) <
      (((|x1 - x0| + |y1 - y0|).toNat + 1 : Nat) : Int) := by
    obtain ⟨A, hA⟩ : ∃ a, |x1 - x0| = a := ⟨_, rfl⟩
    obtain ⟨B, hB⟩ : ∃ b, |y1 - y0| = b := ⟨_, rfl⟩
    have h1 : 0 ≤ A := hA ▸ abs_nonneg _
    have h2 : 0 ≤ B := hB ▸ abs_nonneg _
    rw [hA, hB]
    push_cast
    omega
  have main := bres_aux x0 y0 x1 y1 |x1 - x0| |y1 - y0| (bsx x0 x1)
    (bsy y0 y1) (abs_nonneg _) (abs_nonneg _) (bsx_mul_abs x0 x1)
    (bsy_mul_abs y0 y1) (bsx_sign x0 x1) (bsy_sign y0 y1)
    ((|x1 - x0| + |y1 - y0|).toNat + 1) 0 0 le_rfl (abs_nonneg _) le_rfl
    (abs_nonneg _) hmeas
  obtain ⟨ps, hps, hne, hlast⟩ := main
  simp only [mul_zero, add_zero, mul_one] at hps
  refine ⟨ps, hps, hne, hlast, ?_⟩
  intro c col
  simp only [drawLine]
  rw [show |x1 - x0| - -|y1 - y0| = |x1 - x0| + |y1 - y0| by ring,
    show |x1 - x0| + -|y1 - y0| = |x1 - x0| - |y1 - y0| by ring, hps]

end Pixoo
